import Mathlib

/-!
Verification of the consent-gated KYC access-control engine of the
Decentkyc repository (`decentralized-kyc/backend/app`).

The Python source is shallowly embedded: database rows become Lean
structures, a handler becomes a function from its inputs and the current
database state to a result paired with the successor state (an HTTP
error models an exception raised before the transaction commits, in
which case the state component is returned unchanged), byte strings
become `List Nat` with values below 256, and external effects (Ethereum
signature recovery, AES-GCM, IPFS, OpenCV, wall-clock time, uuid
generation) are threaded in as explicit parameters.
-/

namespace DecentKYC

/-! ## Byte-level helpers -/

/-- Bytes are modelled as natural numbers; a list is a well-formed byte
string when every entry is below 256. -/
def BytesLt (l : List Nat) : Prop := ∀ b ∈ l, b < 256

instance : DecidablePred BytesLt := fun l =>
  List.decidableBAll (fun b => b < 256) l

/-- Flip bit `j` (0-based, `j < 8`) of the byte at index `m` of a byte
string, leaving everything else alone.  Used to state the single-bit
tamper property of the sealed blob. -/
def flipBitAt (l : List Nat) (m j : Nat) : List Nat :=
  l.set m ((l.getD m 0) ^^^ 2 ^ j)

/-! ## Base64 (RFC 4648), as used by `base64.b64encode`/`b64decode` in
`app/core/security.py`.  The decoder is strict on the alphabet; the
blobs manipulated by the repository are always produced by the encoder,
so Python's lenient treatment of foreign characters never comes into
play. -/

def b64alphabet : List Char :=
  "ABCDEFGHIJKLMNOPQRSTUVWXYZabcdefghijklmnopqrstuvwxyz0123456789+/".data

/-- Character for a six-bit group. -/
def b64chr (n : Nat) : Char := b64alphabet.getD n '='

/-- Index of a character in the base64 alphabet. -/
def idxOf? (c : Char) : List Char → Option Nat
  | [] => none
  | x :: xs => if x == c then some 0 else (idxOf? c xs).map (· + 1)

/-- Six-bit value of a base64 character (`none` when the character is
not in the alphabet, padding included). -/
def b64dchr (c : Char) : Option Nat := idxOf? c b64alphabet

/-- Base64 encoding of a byte string, three input bytes per four output
characters, padded with `=`. -/
def b64encode : List Nat → List Char
  | [] => []
  | [a] => [b64chr (a / 4), b64chr (a % 4 * 16), '=', '=']
  | [a, b] => [b64chr (a / 4), b64chr (a % 4 * 16 + b / 16), b64chr (b % 16 * 4), '=']
  | a :: b :: c :: rest =>
    b64chr (a / 4) :: b64chr (a % 4 * 16 + b / 16) ::
    b64chr (b % 16 * 4 + c / 64) :: b64chr (c % 64) :: b64encode rest

/-- Base64 decoding (strict): groups of four characters, optional `=`
padding only at the very end. -/
def b64decode : List Char → Option (List Nat)
  | [] => some []
  | c1 :: c2 :: c3 :: c4 :: rest =>
    match b64dchr c1, b64dchr c2 with
    | some s1, some s2 =>
      if c3 == '=' && c4 == '=' && rest == [] then
        some [s1 * 4 + s2 / 16]
      else if c4 == '=' && rest == [] then
        match b64dchr c3 with
        | some s3 => some [s1 * 4 + s2 / 16, s2 % 16 * 16 + s3 / 4]
        | none => none
      else
        match b64dchr c3, b64dchr c4, b64decode rest with
        | some s3, some s4, some bs =>
          some ((s1 * 4 + s2 / 16) :: (s2 % 16 * 16 + s3 / 4) :: (s3 % 4 * 64 + s4) :: bs)
        | _, _, _ => none
    | _, _ => none
  | _ => none

theorem b64dchr_b64chr {n : Nat} (h : n < 64) : b64dchr (b64chr n) = some n := by
  interval_cases n <;> rfl

theorem b64chr_ne_pad {n : Nat} (h : n < 64) : (b64chr n == '=') = false := by
  interval_cases n <;> rfl

theorem b64decode_b64encode (bs : List Nat) (hb : BytesLt bs) :
    b64decode (b64encode bs) = some bs := by
  induction bs using b64encode.induct with
  | case1 => rfl
  | case2 a =>
    have ha : a < 256 := hb a (by simp)
    have h1 : a / 4 < 64 := by omega
    have h2 : a % 4 * 16 < 64 := by omega
    simp only [b64encode, b64decode, b64dchr_b64chr h1, b64dchr_b64chr h2]
    simp
    omega
  | case3 a b =>
    have ha : a < 256 := hb a (by simp)
    have hbb : b < 256 := hb b (by simp)
    have h1 : a / 4 < 64 := by omega
    have h2 : a % 4 * 16 + b / 16 < 64 := by omega
    have h3 : b % 16 * 4 < 64 := by omega
    simp only [b64encode, b64decode, b64dchr_b64chr h1, b64dchr_b64chr h2,
      b64chr_ne_pad h3, b64dchr_b64chr h3]
    simp
    omega
  | case4 a b c rest ih =>
    have ha : a < 256 := hb a (by simp)
    have hbb : b < 256 := hb b (by simp)
    have hc : c < 256 := hb c (by simp)
    have hrest : BytesLt rest := fun x hx => hb x (by simp [hx])
    have h1 : a / 4 < 64 := by omega
    have h2 : a % 4 * 16 + b / 16 < 64 := by omega
    have h3 : b % 16 * 4 + c / 64 < 64 := by omega
    have h4 : c % 64 < 64 := by omega
    simp only [b64encode, b64decode, b64dchr_b64chr h1, b64dchr_b64chr h2,
      b64chr_ne_pad h3, b64chr_ne_pad h4, b64dchr_b64chr h3, b64dchr_b64chr h4,
      ih hrest]
    simp
    refine ⟨by omega, by omega, by omega⟩

/-! ## Bit-flip and xor helpers -/

theorem flipBitAt_append_left {l1 : List Nat} {m : Nat} (h : m < l1.length)
    (l2 : List Nat) (j : Nat) :
    flipBitAt (l1 ++ l2) m j = flipBitAt l1 m j ++ l2 := by
  induction l1 generalizing m with
  | nil => simp at h
  | cons x xs ih =>
    cases m with
    | zero => simp [flipBitAt]
    | succ m =>
      have hm : m < xs.length := by simpa using h
      have hrec := ih hm
      simp only [flipBitAt] at hrec ⊢
      simp only [List.cons_append, List.getD_cons_succ, List.set_cons_succ]
      rw [hrec]

theorem flipBitAt_append_right {l1 l2 : List Nat} {m : Nat} (h : l1.length ≤ m)
    (j : Nat) :
    flipBitAt (l1 ++ l2) m j = l1 ++ flipBitAt l2 (m - l1.length) j := by
  induction l1 generalizing m with
  | nil => simp [flipBitAt]
  | cons x xs ih =>
    cases m with
    | zero => simp at h
    | succ m =>
      have hm : xs.length ≤ m := by simpa using h
      have hrec := ih hm
      simp only [flipBitAt] at hrec ⊢
      simp only [List.cons_append, List.getD_cons_succ, List.set_cons_succ,
        List.length_cons, Nat.succ_sub_succ]
      rw [hrec]

theorem getD_set_self {l : List Nat} {m : Nat} (v : Nat) (h : m < l.length) :
    (l.set m v).getD m 0 = v := by
  induction l generalizing m with
  | nil => simp at h
  | cons x xs ih =>
    cases m with
    | zero => simp
    | succ m => simpa using ih (by simpa using h)

theorem xor_pow_ne_self (x j : Nat) : x ^^^ 2 ^ j ≠ x := by
  intro h
  have h2 : x ^^^ (x ^^^ 2 ^ j) = x ^^^ x := by rw [h]
  rw [← Nat.xor_assoc, Nat.xor_self, Nat.zero_xor] at h2
  exact Nat.pos_iff_ne_zero.mp (Nat.pow_pos (by omega)) h2

theorem flipBitAt_ne {l : List Nat} {m : Nat} (h : m < l.length) (j : Nat) :
    flipBitAt l m j ≠ l := by
  intro he
  have hg := getD_set_self (l := l) (m := m) ((l.getD m 0) ^^^ 2 ^ j) h
  rw [show l.set m ((l.getD m 0) ^^^ 2 ^ j) = flipBitAt l m j from rfl, he] at hg
  exact xor_pow_ne_self _ _ hg.symm

theorem flipBitAt_bytesLt {l : List Nat} (hl : BytesLt l) {j : Nat} (hj : j < 8)
    (m : Nat) : BytesLt (flipBitAt l m j) := by
  intro b hb
  rcases List.mem_or_eq_of_mem_set hb with h | rfl
  · exact hl b h
  · have h2 : (2 : Nat) ^ j < 256 := by
      calc (2 : Nat) ^ j ≤ 2 ^ 7 := Nat.pow_le_pow_right (by omega) (by omega)
      _ < 256 := by norm_num
    have hg : l.getD m 0 < 256 := by
      by_cases hm : m < l.length
      · rw [List.getD_eq_getElem _ _ hm]
        exact hl _ (List.getElem_mem hm)
      · rw [List.getD_eq_default _ _ (by omega)]
        omega
    exact Nat.xor_lt_two_pow (n := 8) hg h2

/-- Xor of all bytes of a list; the checksum used by the reference AEAD
instance below. -/
def xorAll : List Nat → Nat
  | [] => 0
  | x :: xs => x ^^^ xorAll xs

theorem xorAll_append (l1 l2 : List Nat) :
    xorAll (l1 ++ l2) = xorAll l1 ^^^ xorAll l2 := by
  induction l1 with
  | nil => simp [xorAll]
  | cons x xs ih => simp [xorAll, ih, Nat.xor_assoc]

theorem xorAll_flip {l : List Nat} {m : Nat} (h : m < l.length) (j : Nat) :
    xorAll (flipBitAt l m j) = xorAll l ^^^ 2 ^ j := by
  induction l generalizing m with
  | nil => simp at h
  | cons x xs ih =>
    cases m with
    | zero =>
      simp only [flipBitAt, List.getD_cons_zero, List.set_cons_zero, xorAll]
      rw [Nat.xor_assoc, Nat.xor_comm (2 ^ j), ← Nat.xor_assoc]
    | succ m =>
      have hm : m < xs.length := by simpa using h
      simp only [flipBitAt, List.getD_cons_succ, List.set_cons_succ, xorAll]
      rw [show xs.set m ((xs.getD m 0) ^^^ 2 ^ j) = flipBitAt xs m j from rfl,
        ih hm, ← Nat.xor_assoc]

theorem xorAll_lt {l : List Nat} (h : BytesLt l) : xorAll l < 256 := by
  induction l with
  | nil => simp [xorAll]
  | cons x xs ih =>
    exact Nat.xor_lt_two_pow (n := 8) (h x (by simp))
      (ih fun b hb => h b (by simp [hb]))

/-! ## `app/core/security.py` -/

/-- Hexadecimal value of a character, as accepted by Python's
`bytes.fromhex`. -/
def hexDigit? (c : Char) : Option Nat :=
  if c.isDigit then some (c.toNat - 48)
  else if 'a' ≤ c && c ≤ 'f' then some (c.toNat - 87)
  else if 'A' ≤ c && c ≤ 'F' then some (c.toNat - 55)
  else none

/-- Python's `bytes.fromhex`: consume hex digits two at a time, `none`
models the `ValueError` raised on a stray or odd digit.  (Python also
skips ASCII spaces between byte pairs; no key in this development
contains one.) -/
def bytes_fromhex : List Char → Option (List Nat)
  | [] => some []
  | [_] => none
  | c1 :: c2 :: rest =>
    match hexDigit? c1, hexDigit? c2, bytes_fromhex rest with
    | some h, some l, some bs => some ((16 * h + l) :: bs)
    | _, _, _ => none

/-- The environment-derived settings of `app/core/config.py`.  Pydantic
validates on startup that the two secret fields are present (they have
no default); it imposes no constraint on their contents. -/
structure Settings where
  JWT_SECRET_KEY : String
  AES_ENCRYPTION_KEY : String
deriving DecidableEq, Repr

/-- Startup loading of `Settings` (`get_settings`): succeeds whenever the
two required environment variables are set, whatever their values. -/
def loadSettings (env : List (String × String)) : Option Settings :=
  match env.lookup "JWT_SECRET_KEY", env.lookup "AES_ENCRYPTION_KEY" with
  | some jwt, some aes => some ⟨jwt, aes⟩
  | _, _ => none

/-- Interface of the `AESGCM` authenticated cipher consumed by
`app/core/security.py`, together with the contract the library
documents and the repository relies on: decryption inverts encryption,
ciphertexts of byte strings are byte strings, and any single-bit
alteration of the ciphertext-plus-tag or of the nonce makes decryption
fail (`InvalidTag`). -/
structure AEAD where
  enc : List Nat → List Nat → List Nat → List Nat
  dec : List Nat → List Nat → List Nat → Option (List Nat)
  dec_enc : ∀ key nonce p, dec key nonce (enc key nonce p) = some p
  enc_bytes : ∀ key nonce p, BytesLt key → BytesLt nonce → BytesLt p →
    BytesLt (enc key nonce p)
  dec_flip_ct : ∀ key nonce p m j, m < (enc key nonce p).length → j < 8 →
    dec key nonce (flipBitAt (enc key nonce p) m j) = none
  dec_flip_nonce : ∀ key nonce p m j, m < nonce.length → j < 8 →
    dec key (flipBitAt nonce m j) (enc key nonce p) = none

/-- Key derivation `_get_aes_key`: hex-decode `AES_ENCRYPTION_KEY` and
require exactly 32 bytes; the `ValueError` branches are runtime errors
of each call, nothing here runs at startup. -/
def get_aes_key (st : Settings) : Except String (List Nat) :=
  match bytes_fromhex st.AES_ENCRYPTION_KEY.data with
  | none => .error "ValueError: non-hexadecimal number found in fromhex"
  | some raw =>
    if raw.length ≠ 32 then
      .error "AES_ENCRYPTION_KEY must be exactly 32 bytes (64 hex chars)"
    else .ok raw

/-- AES-256-GCM encryption `encrypt_document`; the fresh 96-bit
`os.urandom` nonce is passed in as a parameter.  Returns
`(nonce, ciphertext_with_tag)`. -/
def encrypt_document (A : AEAD) (st : Settings) (nonce plaintext : List Nat) :
    Except String (List Nat × List Nat) :=
  match get_aes_key st with
  | .error e => .error e
  | .ok key => .ok (nonce, A.enc key nonce plaintext)

/-- AES-256-GCM decryption `decrypt_document`; the `InvalidTag` raised on
tampered input becomes an error value. -/
def decrypt_document (A : AEAD) (st : Settings) (nonce ciphertext : List Nat) :
    Except String (List Nat) :=
  match get_aes_key st with
  | .error e => .error e
  | .ok key =>
    match A.dec key nonce ciphertext with
    | some p => .ok p
    | none => .error "InvalidTag"

/-- Convenience `encrypt_to_b64`: encrypt and base64 the blob
`nonce ++ ciphertext`. -/
def encrypt_to_b64 (A : AEAD) (st : Settings) (nonce plaintext : List Nat) :
    Except String String :=
  match encrypt_document A st nonce plaintext with
  | .error e => .error e
  | .ok (n, ciphertext) => .ok (String.mk (b64encode (n ++ ciphertext)))

/-- Convenience `decrypt_from_b64`: base64-decode, split off the
12-byte nonce, decrypt the rest. -/
def decrypt_from_b64 (A : AEAD) (st : Settings) (b64_blob : String) :
    Except String (List Nat) :=
  match b64decode b64_blob.data with
  | none => .error "binascii.Error"
  | some combined =>
    decrypt_document A st (combined.take 12) (combined.drop 12)

/-- ASCII lower-casing of one character, as Python's `str.lower` acts on
the hex addresses compared here. -/
def lowerChar (c : Char) : Char :=
  if 'A' ≤ c && c ≤ 'Z' then Char.ofNat (c.toNat + 32) else c

/-- ASCII lower-casing of a string (`.lower()`). -/
def lowerStr (s : String) : String := String.mk (s.data.map lowerChar)

/-- Ethereum signature check `verify_eth_signature`: recover the signer
from the message and signature (the `eth_account` recovery primitive is
the parameter `recover`, yielding `none` when it raises on malformed
input) and compare the address case-insensitively; any failure returns
`false`. -/
def verify_eth_signature (recover : String → String → Option String)
    (message signature expected_address : String) : Bool :=
  match recover message signature with
  | some recovered => lowerStr recovered == lowerStr expected_address
  | none => false

/-! ### A reference `AEAD` instance

Executable witness instance: the "ciphertext" is the plaintext followed
by one checksum byte xoring every byte of key, nonce and plaintext, so
decryption can authenticate its inputs and any single-bit flip is
detected. -/

def toy_enc (key nonce p : List Nat) : List Nat :=
  p ++ [xorAll (key ++ nonce ++ p)]

def toy_dec (key nonce c : List Nat) : Option (List Nat) :=
  match c.getLast? with
  | none => none
  | some t =>
    if t = xorAll (key ++ nonce ++ c.dropLast) then some c.dropLast else none

theorem toy_dec_enc (key nonce p : List Nat) :
    toy_dec key nonce (toy_enc key nonce p) = some p := by
  simp [toy_enc, toy_dec, List.getLast?_concat, List.dropLast_concat]

theorem xor_left_comm (a b c : Nat) : a ^^^ (b ^^^ c) = b ^^^ (a ^^^ c) := by
  rw [← Nat.xor_assoc, Nat.xor_comm a b, Nat.xor_assoc]

theorem toy_dec_flip_ct (key nonce p : List Nat) (m j : Nat)
    (hm : m < (toy_enc key nonce p).length) (_hj : j < 8) :
    toy_dec key nonce (flipBitAt (toy_enc key nonce p) m j) = none := by
  have hlen : (toy_enc key nonce p).length = p.length + 1 := by simp [toy_enc]
  by_cases hp : m < p.length
  · have hset : flipBitAt (toy_enc key nonce p) m j
        = flipBitAt p m j ++ [xorAll (key ++ nonce ++ p)] := by
      simpa [toy_enc] using flipBitAt_append_left hp [xorAll (key ++ nonce ++ p)] j
    have hflip : xorAll (key ++ nonce ++ flipBitAt p m j)
        = xorAll (key ++ nonce ++ p) ^^^ 2 ^ j := by
      rw [xorAll_append, xorAll_append, xorAll_flip hp, xorAll_append, xorAll_append]
      simp [Nat.xor_assoc, Nat.xor_comm, xor_left_comm]
    rw [hset]
    simp only [toy_dec, List.getLast?_concat, List.dropLast_concat]
    rw [hflip]
    rw [if_neg fun he => xor_pow_ne_self _ _ he.symm]
  · have hm3 : m = p.length := by omega
    subst hm3
    have hset : flipBitAt (toy_enc key nonce p) p.length j
        = p ++ [xorAll (key ++ nonce ++ p) ^^^ 2 ^ j] := by
      rw [toy_enc, flipBitAt_append_right (by omega)]
      simp [flipBitAt]
    rw [hset]
    simp only [toy_dec, List.getLast?_concat, List.dropLast_concat]
    rw [if_neg fun he => xor_pow_ne_self _ _ he]

theorem toy_dec_flip_nonce (key nonce p : List Nat) (m j : Nat)
    (hm : m < nonce.length) (_hj : j < 8) :
    toy_dec key (flipBitAt nonce m j) (toy_enc key nonce p) = none := by
  have hflip : xorAll (key ++ flipBitAt nonce m j ++ p)
      = xorAll (key ++ nonce ++ p) ^^^ 2 ^ j := by
    rw [xorAll_append, xorAll_append, xorAll_flip hm, xorAll_append, xorAll_append]
    simp [Nat.xor_assoc, Nat.xor_comm, xor_left_comm]
  simp only [toy_enc, toy_dec, List.getLast?_concat, List.dropLast_concat]
  rw [hflip]
  rw [if_neg fun he => xor_pow_ne_self _ _ he.symm]

theorem toy_enc_bytes (key nonce p : List Nat) (hk : BytesLt key)
    (hn : BytesLt nonce) (hp : BytesLt p) : BytesLt (toy_enc key nonce p) := by
  intro b hb
  simp only [toy_enc, List.mem_append, List.mem_singleton] at hb
  rcases hb with hb | rfl
  · exact hp b hb
  · refine xorAll_lt fun b hb => ?_
    simp only [List.mem_append] at hb
    rcases hb with (hb | hb) | hb
    · exact hk b hb
    · exact hn b hb
    · exact hp b hb

/-- The reference AEAD instance packaged with its contract proofs. -/
def toyAEAD : AEAD where
  enc := toy_enc
  dec := toy_dec
  dec_enc := toy_dec_enc
  enc_bytes := toy_enc_bytes
  dec_flip_ct := toy_dec_flip_ct
  dec_flip_nonce := toy_dec_flip_nonce

/-! ## Data model (`app/db/database.py`)

Rows become structures; the session becomes an explicit `DBState`.
`uuid.uuid4()` and `datetime.now(timezone.utc)` are threaded in as the
`freshId` and `now` parameters; the audit row id (an opaque uuid used
nowhere) is left out.  The blockchain client is never connected in this
development, so every non-fatal on-chain call is the no-op branch of the
source and `tx_hash` stays `none`. -/

inductive ConsentStatus where
  | pending
  | granted
  | revoked
deriving DecidableEq, Repr

/-- Python `repr` of a `ConsentStatus` member, as interpolated by the
f-string of the 409 detail in `request_access`. -/
def ConsentStatus.pyRepr : ConsentStatus → String
  | .pending => "ConsentStatus.pending"
  | .granted => "ConsentStatus.granted"
  | .revoked => "ConsentStatus.revoked"

/-- The audit event kinds of the `AuditEventType` enum.  The enum has no
`access_history` member, although `app/api/consent.py` line 339 refers
to one. -/
inductive AuditEventType where
  | kyc_registered
  | kyc_verified
  | access_requested
  | consent_granted
  | consent_revoked
  | document_accessed
  | liveness_check
deriving DecidableEq, Repr

structure User where
  id : String
  email : String
  full_name : String
  role : String
  wallet_address : Option String
deriving DecidableEq, Repr

structure KYCRecord where
  id : String
  user_id : String
  ipfs_cid : String
  doc_type : String
  is_verified : Bool
  uploaded_at : Nat
  expires_at : Option Nat
  fraud_score : Option Nat
deriving DecidableEq, Repr

structure ConsentRecord where
  id : String
  user_id : String
  bank_id : String
  status : ConsentStatus
  tx_hash : Option String
  requested_at : Nat
  granted_at : Option Nat
  revoked_at : Option Nat
  signature : Option String
deriving DecidableEq, Repr

structure AuditLog where
  actor_id : String
  target_user_id : Option String
  event_type : AuditEventType
  tx_hash : Option String
  ip_address : Option String
  details : String
  created_at : Nat
deriving DecidableEq, Repr

/-- The relational state the handlers read and write. -/
structure DBState where
  users : List User
  kyc_records : List KYCRecord
  consents : List ConsentRecord
  audit : List AuditLog
deriving DecidableEq, Repr

/-- An `HTTPException(status_code, detail)`. -/
structure ApiError where
  status : Nat
  detail : String
deriving DecidableEq, Repr

/-- Mutate the first element satisfying `p` in place, the way assigning
to the attributes of the row object returned by `.first()` does. -/
def updateFirst (p : α → Bool) (f : α → α) : List α → List α
  | [] => []
  | x :: xs => if p x then f x :: xs else x :: updateFirst p f xs

/-! ## Request bodies (`app/models/schemas.py`) -/

structure AccessRequest where
  user_wallet_address : String
deriving DecidableEq, Repr

structure GrantConsentRequest where
  bank_id : String
  bank_wallet_address : String
  signature : String
  consent_message : String
deriving DecidableEq, Repr

structure RevokeConsentRequest where
  bank_id : String
  bank_wallet_address : String
  signature : String
  consent_message : String
deriving DecidableEq, Repr

/-! ## Consent endpoints (`app/api/consent.py`)

Each handler takes the authenticated `current_user` (the `require_*`
dependency becomes the leading role guard), the request body and the
current `DBState`, and returns the response paired with the successor
state.  An `ApiError` models an `HTTPException` raised before
`db.commit()`, so the state component is the unchanged input state. -/

/-- Handler `request_access` (`POST /consent/request-access`). -/
def request_access (now : Nat) (freshId : String) (current_user : User)
    (body : AccessRequest) (s : DBState) :
    Except ApiError String × DBState :=
  if current_user.role ≠ "bank" then
    (.error ⟨403, "Role not authorised for this action"⟩, s)
  else
    match s.users.find? (fun u =>
        u.wallet_address == some body.user_wallet_address && u.role == "user") with
    | none => (.error ⟨404, "User wallet address not found"⟩, s)
    | some target_user =>
      match s.kyc_records.find? (fun k => k.user_id == target_user.id) with
      | none => (.error ⟨404, "Target user has no KYC record"⟩, s)
      | some kyc =>
        if kyc.expires_at.any (fun t => t < now) then
          (.error ⟨410, "Target user KYC has expired"⟩, s)
        else
          match s.consents.find? (fun c =>
              c.user_id == target_user.id && c.bank_id == current_user.id &&
              (c.status == ConsentStatus.pending || c.status == ConsentStatus.granted)) with
          | some existing =>
            (.error ⟨409, "Access request already exists with status: "
              ++ existing.status.pyRepr⟩, s)
          | none =>
            let consent : ConsentRecord :=
              { id := freshId, user_id := target_user.id, bank_id := current_user.id,
                status := .pending, tx_hash := none, requested_at := now,
                granted_at := none, revoked_at := none, signature := none }
            let entry : AuditLog :=
              { actor_id := current_user.id, target_user_id := some target_user.id,
                event_type := .access_requested, tx_hash := none, ip_address := none,
                details := "Bank " ++ current_user.email ++ " requested KYC access",
                created_at := now }
            (.ok consent.id,
             { s with consents := s.consents ++ [consent], audit := s.audit ++ [entry] })

/-- Shared tail of `grant_access` once a consent row has been located
(by either lookup): ownership check, then the in-place update of the
located row, the audit append and the commit.  `pred` is the predicate
that located the row, so the update hits exactly the same first match. -/
def grant_apply (now : Nat) (current_user : User) (body : GrantConsentRequest)
    (s : DBState) (c : ConsentRecord) (pred : ConsentRecord → Bool) :
    Except ApiError ConsentRecord × DBState :=
  if c.user_id ≠ current_user.id then
    (.error ⟨403, "You can only grant consent for your own KYC"⟩, s)
  else
    let upd : ConsentRecord → ConsentRecord := fun x =>
      { x with status := .granted, granted_at := some now,
               signature := some body.signature }
    let bank := s.users.find? (fun u => u.id == c.bank_id)
    let entry : AuditLog :=
      { actor_id := current_user.id, target_user_id := some current_user.id,
        event_type := .consent_granted, tx_hash := none, ip_address := none,
        details := "Consent granted to bank: "
          ++ (match bank with | some b => b.email | none => "unknown"),
        created_at := now }
    (.ok (upd c),
     { s with consents := updateFirst pred upd s.consents,
              audit := s.audit ++ [entry] })

/-- Handler `grant_access` (`POST /consent/grant-access`).  Note the
dual-meaning lookup of the source: `body.bank_id` is first tried as a
consent-record id — with no check on that record's status — and only
when that misses as the bank's user id, restricted to pending rows. -/
def grant_access (recover : String → String → Option String) (now : Nat)
    (current_user : User) (body : GrantConsentRequest) (s : DBState) :
    Except ApiError ConsentRecord × DBState :=
  if current_user.role ≠ "user" then
    (.error ⟨403, "Role not authorised for this action"⟩, s)
  else
    match current_user.wallet_address with
    | none => (.error ⟨400, "User has no wallet address linked"⟩, s)
    | some wallet =>
      if ¬ verify_eth_signature recover body.consent_message body.signature wallet then
        (.error ⟨403, "Invalid digital signature. Consent rejected."⟩, s)
      else
        match s.consents.find? (fun c => c.id == body.bank_id) with
        | some c =>
          grant_apply now current_user body s c (fun x => x.id == body.bank_id)
        | none =>
          match s.users.find? (fun u => u.id == body.bank_id) with
          | none => (.error ⟨404, "Bank not found"⟩, s)
          | some bank =>
            match s.consents.find? (fun c =>
                c.user_id == current_user.id && c.bank_id == bank.id &&
                c.status == ConsentStatus.pending) with
            | none => (.error ⟨404, "No pending access request found"⟩, s)
            | some c =>
              grant_apply now current_user body s c (fun x =>
                x.user_id == current_user.id && x.bank_id == bank.id &&
                x.status == ConsentStatus.pending)

/-- Handler `revoke_access` (`POST /consent/revoke-access`). -/
def revoke_access (recover : String → String → Option String) (now : Nat)
    (current_user : User) (body : RevokeConsentRequest) (s : DBState) :
    Except ApiError String × DBState :=
  if current_user.role ≠ "user" then
    (.error ⟨403, "Role not authorised for this action"⟩, s)
  else
    match current_user.wallet_address with
    | none => (.error ⟨400, "User has no wallet address linked"⟩, s)
    | some wallet =>
      if ¬ verify_eth_signature recover body.consent_message body.signature wallet then
        (.error ⟨403, "Invalid digital signature. Revocation rejected."⟩, s)
      else
        match s.users.find? (fun u => u.id == body.bank_id) with
        | none => (.error ⟨404, "Bank not found"⟩, s)
        | some bank =>
          match s.consents.find? (fun c =>
              c.user_id == current_user.id && c.bank_id == bank.id &&
              c.status == ConsentStatus.granted) with
          | none => (.error ⟨404, "No active consent to revoke"⟩, s)
          | some _consent =>
            let pred : ConsentRecord → Bool := fun c =>
              c.user_id == current_user.id && c.bank_id == bank.id &&
              c.status == ConsentStatus.granted
            let entry : AuditLog :=
              { actor_id := current_user.id, target_user_id := some current_user.id,
                event_type := .consent_revoked, tx_hash := none, ip_address := none,
                details := "Consent revoked from bank: " ++ bank.email,
                created_at := now }
            (.ok "Consent revoked successfully. Bank access has been terminated.",
             { s with
                consents := updateFirst pred
                  (fun c => { c with status := .revoked, revoked_at := some now })
                  s.consents,
                audit := s.audit ++ [entry] })

/-- One row of the response `get_pending_requests` assembles. -/
structure PendingRequestOut where
  consent_id : String
  bank_name : String
  bank_email : String
  requested_at : Nat
deriving DecidableEq, Repr

/-- The `result` list the handler `get_pending_requests` builds from the
pending rows of the current user. -/
def get_pending_requests_result (current_user : User) (s : DBState) :
    List PendingRequestOut :=
  (s.consents.filter (fun c =>
      c.user_id == current_user.id && c.status == ConsentStatus.pending)).map
    (fun r =>
      match s.users.find? (fun u => u.id == r.bank_id) with
      | some bank => ⟨r.id, bank.full_name, bank.email, r.requested_at⟩
      | none => ⟨r.id, "Unknown", "Unknown", r.requested_at⟩)

set_option linter.unusedVariables false in
/-- Handler `get_pending_requests` (`GET /consent/pending`).  The source
builds `result` and then falls off the end of the function without a
return statement, so the Python response value is `None`: the body is
modelled as computing the list and answering `none`. -/
def get_pending_requests (current_user : User) (s : DBState) :
    Except ApiError (Option (List PendingRequestOut)) :=
  if current_user.role ≠ "user" then
    .error ⟨403, "Role not authorised for this action"⟩
  else
    let result := get_pending_requests_result current_user s
    .ok none

/-- Handler `view_user_kyc` (`GET /consent/view/{user_wallet_address}`),
up to the point where the source constructs the audit row with
`AuditEventType.access_history`: the enum defines no such member, so
that attribute access raises `AttributeError` at runtime — before
`db.add`/`db.commit` and before any data is returned.  The raise is
modelled as a 500 with the state unchanged. -/
def view_user_kyc (current_user : User) (user_wallet_address : String)
    (s : DBState) : Except ApiError (List (String × String)) × DBState :=
  if current_user.role ≠ "bank" then
    (.error ⟨403, "Role not authorised for this action"⟩, s)
  else
    match s.users.find? (fun u =>
        u.wallet_address == some user_wallet_address && u.role == "user") with
    | none => (.error ⟨404, "User wallet address not found"⟩, s)
    | some target_user =>
      match s.consents.find? (fun c =>
          c.user_id == target_user.id && c.bank_id == current_user.id &&
          c.status == ConsentStatus.granted) with
      | none =>
        (.error ⟨403, "Access Denied. User has not granted you active consent."⟩, s)
      | some _consent =>
        match s.kyc_records.find? (fun k => k.user_id == target_user.id) with
        | none => (.error ⟨404, "KYC record not found for this user"⟩, s)
        | some _kyc =>
          (.error ⟨500, "AttributeError: type object AuditEventType has no attribute access_history"⟩, s)

/-! ## IPFS (`app/core/ipfs.py`)

`download_decrypted` fetches the base64 blob for a CID (network node or
local mock directory) and AES-decrypts it.  For the access-control
claims only its success or failure matters, so the store is abstracted
to an association of CIDs with the plaintext a successful
fetch-and-decrypt yields; `none` covers both the `RuntimeError` paths
and an `InvalidTag`. -/

def ipfs_download_decrypted (ipfs : List (String × List Nat)) (cid : String) :
    Option (List Nat) :=
  ipfs.lookup cid

/-! ## KYC endpoints (`app/api/kyc.py`) -/

/-- Response of `bank_view_document`. -/
structure BankViewDocumentOut where
  doc_type : String
  doc_b64 : String
  uploaded_at : Option Nat
deriving DecidableEq, Repr

/-- Handler `bank_view_document` (`GET /kyc/view-document/{consent_id}`):
the consent row is looked up by its id, restricted to this bank and to
`granted` status; the decrypted bytes are returned base64-encoded and
one `document_accessed` audit row is committed. -/
def bank_view_document (now : Nat) (current_user : User) (consent_id : String)
    (ipfs : List (String × List Nat)) (s : DBState) :
    Except ApiError BankViewDocumentOut × DBState :=
  if current_user.role ≠ "bank" then
    (.error ⟨403, "Role not authorised for this action"⟩, s)
  else
    match s.consents.find? (fun c =>
        c.id == consent_id && c.bank_id == current_user.id &&
        c.status == ConsentStatus.granted) with
    | none => (.error ⟨403, "No active consent. Cannot view document."⟩, s)
    | some consent =>
      match s.kyc_records.find? (fun k => k.user_id == consent.user_id) with
      | none => (.error ⟨404, "No KYC document found."⟩, s)
      | some kyc =>
        match ipfs_download_decrypted ipfs kyc.ipfs_cid with
        | none => (.error ⟨502, "Failed to retrieve document from IPFS"⟩, s)
        | some plaintext_bytes =>
          let entry : AuditLog :=
            { actor_id := current_user.id, target_user_id := some consent.user_id,
              event_type := .document_accessed, tx_hash := none, ip_address := none,
              details := "Bank " ++ current_user.email
                ++ " viewed document for consent " ++ consent_id,
              created_at := now }
          (.ok { doc_type := kyc.doc_type,
                 doc_b64 := String.mk (b64encode plaintext_bytes),
                 uploaded_at := some kyc.uploaded_at },
           { s with audit := s.audit ++ [entry] })

/-- The measurements `identify_document` computes from a decoded image
with OpenCV; the image processing itself stays abstract. -/
structure ImageAnalysis where
  width : Nat
  height : Nat
  sharpness : Nat
  brightness : Nat
  confidence : Nat
deriving DecidableEq, Repr

/-- Response of `identify_document`: the early-return PDF branch, or the
full image analysis. -/
inductive IdentifyOut where
  | pdfInfo (doc_type : String) (size_bytes : Nat) (confidence : Nat)
  | imageInfo (doc_type : String) (analysis : ImageAnalysis)
deriving DecidableEq, Repr

/-- Handler `identify_document` (`GET /kyc/identify`): fetch and decrypt
the caller's own document, decode it with `cv2.imdecode` (the parameter
`imdecode`, `none` when the bytes are not an image — the PDF branch) and
return the analysis.  Neither success path touches the database: no
audit row is appended, `db.commit` is never called. -/
def identify_document (imdecode : List Nat → Option ImageAnalysis)
    (current_user : User) (ipfs : List (String × List Nat)) (s : DBState) :
    Except ApiError IdentifyOut × DBState :=
  if current_user.role ≠ "user" then
    (.error ⟨403, "Role not authorised for this action"⟩, s)
  else
    match s.kyc_records.find? (fun k => k.user_id == current_user.id) with
    | none => (.error ⟨404, "No KYC document found. Please upload first."⟩, s)
    | some kyc =>
      match ipfs_download_decrypted ipfs kyc.ipfs_cid with
      | none => (.error ⟨502, "Could not retrieve document"⟩, s)
      | some plaintext_bytes =>
        match imdecode plaintext_bytes with
        | none => (.ok (.pdfInfo kyc.doc_type plaintext_bytes.length 70), s)
        | some analysis => (.ok (.imageInfo kyc.doc_type analysis), s)

/-! ## Fraud scoring (`app/services/fraud_detection.py`) and the upload
gate of `upload_kyc` (`app/api/kyc.py`). -/

def allowed_types : List String :=
  ["image/jpeg", "image/png", "image/webp", "application/pdf"]

/-- The MVP fraud scorer `scan_document`: 70 for an unknown content
type, 60 below 10 KB, 75 on a magic-byte mismatch, 5 otherwise. -/
def scan_document (file_bytes : List Nat) (content_type : String) : Nat :=
  if ¬ allowed_types.contains content_type then 70
  else if file_bytes.length < 10 * 1024 then 60
  else if content_type == "application/pdf"
      && ¬ file_bytes.take 4 == [0x25, 0x50, 0x44, 0x46] then 75
  else if content_type == "image/jpeg"
      && ¬ file_bytes.take 2 == [0xff, 0xd8] then 75
  else 5

/-- The size and fraud gate at the head of `upload_kyc` (lines 58-77):
413 over the size limit, 422 when the fraud score reaches 80, and
otherwise the pipeline continues with the computed score. -/
def upload_kyc_gate (max_document_size_mb : Nat) (file_bytes : List Nat)
    (content_type : String) : Except ApiError Nat :=
  let max_bytes := max_document_size_mb * 1024 * 1024
  if file_bytes.length > max_bytes then
    .error ⟨413, "File exceeds maximum size"⟩
  else
    let fraud_score := scan_document file_bytes content_type
    if fraud_score ≥ 80 then
      .error ⟨422, "Document flagged by fraud detection. Please upload a valid document."⟩
    else
      .ok fraud_score

/-! ## Audit endpoint (`app/api/audit.py`) -/

/-- Insertion sort by descending creation time, modelling
`order_by(AuditLog.created_at.desc())`. -/
def insertDesc (e : AuditLog) : List AuditLog → List AuditLog
  | [] => [e]
  | x :: xs => if x.created_at ≤ e.created_at then e :: x :: xs
               else x :: insertDesc e xs

def sortByCreatedDesc : List AuditLog → List AuditLog
  | [] => []
  | x :: xs => insertDesc x (sortByCreatedDesc xs)

/-- Response of `get_audit_logs`. -/
structure AuditLogList where
  total : Nat
  logs : List AuditLog
deriving DecidableEq, Repr

/-- Handler `get_audit_logs` (`GET /audit/logs`): the role filter is
chained onto the query — validators see everything, banks only rows
where they are the actor, everyone else rows where they are actor or
target — then the optional event-type filter, then `count()` for the
total, then ordering and `offset/limit` pagination. -/
def get_audit_logs (skip limit : Nat) (event_type : Option AuditEventType)
    (current_user : User) (s : DBState) : Except ApiError AuditLogList :=
  if ¬ (current_user.role == "user" || current_user.role == "bank"
      || current_user.role == "validator") then
    .error ⟨403, "Role not authorised for this action"⟩
  else
    let query := s.audit
    let query :=
      if current_user.role == "validator" then query
      else if current_user.role == "bank" then
        query.filter (fun l => l.actor_id == current_user.id)
      else
        query.filter (fun l =>
          l.actor_id == current_user.id || l.target_user_id == some current_user.id)
    let query :=
      match event_type with
      | some et => query.filter (fun l => l.event_type == et)
      | none => query
    let total := query.length
    let logs := ((sortByCreatedDesc query).drop skip).take limit
    .ok ⟨total, logs⟩

/-- Visibility predicate as §4.6 of the spec words it: an auditor
(`validator`) sees every entry, any other caller exactly the entries in
which it is the actor or the target. -/
def auditVisibleSpec (u : User) (e : AuditLog) : Bool :=
  u.role == "validator" || e.actor_id == u.id || e.target_user_id == some u.id

/-- Visibility the code actually applies: banks are restricted to rows
where they are the actor, targets excluded. -/
def auditVisibleCode (u : User) (e : AuditLog) : Bool :=
  if u.role == "validator" then true
  else if u.role == "bank" then e.actor_id == u.id
  else e.actor_id == u.id || e.target_user_id == some u.id

/-- The optional event-type restriction of the audit query as a
predicate. -/
def etMatch (et : Option AuditEventType) (l : AuditLog) : Bool :=
  match et with
  | some e => l.event_type == e
  | none => true

/-! ## Concrete fixtures

A subject, a bank, one KYC record, and the recovery oracle under which
exactly the signature string "sig-good" recovers the subject's wallet.
The states `s1` – `s5` run the handlers through a request / grant /
revoke / second request / grant-by-consent-id trace. -/

def userU : User :=
  { id := "u1", email := "u@example.com", full_name := "User One",
    role := "user", wallet_address := some "0xabc" }

def bankB : User :=
  { id := "b1", email := "b@example.com", full_name := "Bank One",
    role := "bank", wallet_address := some "0xdef" }

def kycK : KYCRecord :=
  { id := "k1", user_id := "u1", ipfs_cid := "cid1", doc_type := "passport",
    is_verified := false, uploaded_at := 0, expires_at := none,
    fraud_score := some 5 }

def recoverC : String → String → Option String := fun _message sig =>
  if sig == "sig-good" then some "0xabc" else none

def ipfsC : List (String × List Nat) := [("cid1", [9, 9, 9])]

def s0 : DBState := ⟨[userU, bankB], [kycK], [], []⟩

def bodyReq : AccessRequest := ⟨"0xabc"⟩

def bodyGrantByBank : GrantConsentRequest :=
  { bank_id := "b1", bank_wallet_address := "0xdef",
    signature := "sig-good", consent_message := "m1" }

def bodyRevoke : RevokeConsentRequest :=
  { bank_id := "b1", bank_wallet_address := "0xdef",
    signature := "sig-good", consent_message := "m2" }

def bodyGrantById : GrantConsentRequest :=
  { bank_id := "c1", bank_wallet_address := "0xdef",
    signature := "sig-good", consent_message := "m3" }

def s1 : DBState := (request_access 1 "c1" bankB bodyReq s0).2

def s2 : DBState := (grant_access recoverC 2 userU bodyGrantByBank s1).2

def s3 : DBState := (revoke_access recoverC 3 userU bodyRevoke s2).2

def s4 : DBState := (request_access 4 "c2" bankB bodyReq s3).2

def s5 : DBState := (grant_access recoverC 5 userU bodyGrantById s4).2

/-- Predicate for a live (pending or granted) consent row of the fixture
pair, as the conflict check of `request_access` tests it. -/
def livePair (c : ConsentRecord) : Bool :=
  c.user_id == "u1" && c.bank_id == "b1" &&
  (c.status == ConsentStatus.pending || c.status == ConsentStatus.granted)

/-- True exactly on `Except.ok`. -/
def exceptIsOk : Except ε α → Bool
  | .ok _ => true
  | .error _ => false

/-- Decidable equality for results, so closed runs of the handlers can
be checked by evaluation. -/
def exceptDecEq [DecidableEq ε] [DecidableEq α] : DecidableEq (Except ε α) :=
  fun x y =>
    match x, y with
    | .ok a, .ok b =>
      if h : a = b then isTrue (by rw [h])
      else isFalse (by intro hc; cases hc; exact h rfl)
    | .error a, .error b =>
      if h : a = b then isTrue (by rw [h])
      else isFalse (by intro hc; cases hc; exact h rfl)
    | .ok _, .error _ => isFalse (by intro hc; cases hc)
    | .error _, .ok _ => isFalse (by intro hc; cases hc)

instance [DecidableEq ε] [DecidableEq α] : DecidableEq (Except ε α) :=
  exceptDecEq

/-- An audit row in which the fixture bank is the target and the subject
the actor. -/
def auditEntryT : AuditLog :=
  { actor_id := "u1", target_user_id := some "b1",
    event_type := .document_accessed, tx_hash := none, ip_address := none,
    details := "subject accessed data concerning the bank", created_at := 1 }

def sAud : DBState := ⟨[userU, bankB], [], [], [auditEntryT]⟩

def envBad : List (String × String) :=
  [("JWT_SECRET_KEY", "jwt-secret"), ("AES_ENCRYPTION_KEY", "aabb")]

/-! ## Claim theorems -/

/-- Claim C1, counterexample: after the reachable trace
request → grant → revoke → request, the first consent record sits in
`revoked`; calling grant with that record's id in the `bank_id` field
succeeds and sets the very same record back to `granted`, so grant does
transition a revoked record to granted again, against the claim. -/
theorem grant_regrants_revoked_record :
    exceptIsOk (request_access 1 "c1" bankB bodyReq s0).1 = true ∧
    exceptIsOk (grant_access recoverC 2 userU bodyGrantByBank s1).1 = true ∧
    exceptIsOk (revoke_access recoverC 3 userU bodyRevoke s2).1 = true ∧
    exceptIsOk (request_access 4 "c2" bankB bodyReq s3).1 = true ∧
    (s4.consents.find? (fun c => c.id == "c1")).map ConsentRecord.status
      = some ConsentStatus.revoked ∧
    (grant_access recoverC 5 userU bodyGrantById s4).1
      = .ok { id := "c1", user_id := "u1", bank_id := "b1",
              status := ConsentStatus.granted, tx_hash := none,
              requested_at := 1, granted_at := some 5, revoked_at := some 3,
              signature := some "sig-good" } ∧
    (s5.consents.find? (fun c => c.id == "c1")).map ConsentRecord.status
      = some ConsentStatus.granted := by decide

/-- Claim C4, counterexample: the five-step trace above is accepted by
the handlers end to end and leaves the fixture (subject, bank) pair with
two simultaneously live consent records — one `granted`, one `pending` —
so the at-most-one-live invariant does not hold of every reachable
state. -/
theorem two_live_consents_reachable :
    exceptIsOk (request_access 1 "c1" bankB bodyReq s0).1 = true ∧
    exceptIsOk (grant_access recoverC 2 userU bodyGrantByBank s1).1 = true ∧
    exceptIsOk (revoke_access recoverC 3 userU bodyRevoke s2).1 = true ∧
    exceptIsOk (request_access 4 "c2" bankB bodyReq s3).1 = true ∧
    exceptIsOk (grant_access recoverC 5 userU bodyGrantById s4).1 = true ∧
    (s5.consents.filter livePair).length = 2 := by decide

/-- Claim C2, code bug: in a state where the subject has granted the
bank active consent (and has a KYC record), the fetch endpoint keyed by
the subject wallet does not return the document — the handler reaches
the audit construction, whose `AuditEventType.access_history` attribute
does not exist on the enum, and dies with an `AttributeError` (HTTP
500), state unchanged. -/
theorem view_user_kyc_crashes_despite_granted_consent :
    (s2.consents.find? (fun c =>
        c.user_id == "u1" && c.bank_id == "b1" &&
        c.status == ConsentStatus.granted)).isSome = true ∧
    view_user_kyc bankB "0xabc" s2
      = (.error ⟨500, "AttributeError: type object AuditEventType has no attribute access_history"⟩,
         s2) := by decide

/-- Claim C9, code bug: with one pending request on file the handler
computes a non-empty `result` list — and then answers `none`, because
the source has no return statement. -/
theorem get_pending_requests_returns_none :
    get_pending_requests_result userU s1
      = [{ consent_id := "c1", bank_name := "Bank One",
           bank_email := "b@example.com", requested_at := 1 }] ∧
    get_pending_requests userU s1 = .ok none := by decide

/-- Claim C6, counterexample: the subject's own fetch-and-return of the
decrypted document (`identify_document`) succeeds and leaves the state
— in particular the audit log — exactly as it was: no AuditEntry is
appended. -/
theorem identify_document_appends_no_audit :
    (identify_document (fun _bytes => none) userU ipfsC s2).1
      = .ok (.pdfInfo "passport" 3 70) ∧
    (identify_document (fun _bytes => none) userU ipfsC s2).2 = s2 := by decide

/-- Claim C5, counterexample: an audit entry whose target is the bank is
visible to the bank under the role policy of the spec, yet the bank's
query returns no rows and a total of zero — the code filters banks by
actor only. -/
theorem bank_cannot_see_entries_targeting_it :
    auditVisibleSpec bankB auditEntryT = true ∧
    get_audit_logs 0 50 none bankB sAud = .ok ⟨0, []⟩ := by decide

/-- Claim C8, counterexample: a 2-byte AES key passes settings loading
(startup validates only presence), and then both encrypt and decrypt
raise the key-length `ValueError` at call time. -/
theorem short_key_passes_startup_fails_at_encrypt :
    loadSettings envBad = some ⟨"jwt-secret", "aabb"⟩ ∧
    encrypt_document toyAEAD ⟨"jwt-secret", "aabb"⟩
        [0, 1, 2, 3, 4, 5, 6, 7, 8, 9, 10, 11] [1, 2, 3]
      = .error "AES_ENCRYPTION_KEY must be exactly 32 bytes (64 hex chars)" ∧
    decrypt_document toyAEAD ⟨"jwt-secret", "aabb"⟩
        [0, 1, 2, 3, 4, 5, 6, 7, 8, 9, 10, 11] [1, 2, 3]
      = .error "AES_ENCRYPTION_KEY must be exactly 32 bytes (64 hex chars)" := by decide

/-- Claim C3: a grant or revoke call whose signature does not verify
against the subject's bound wallet address is rejected with the
InvalidSignature error (403, distinct detail per operation) and returns
the database state exactly as it was — the signature gate precedes
every lookup and mutation. -/
theorem invalid_signature_rejects_and_preserves_state
    (recover : String → String → Option String) (now : Nat) (cu : User)
    (gbody : GrantConsentRequest) (rbody : RevokeConsentRequest)
    (s : DBState) (wallet : String)
    (hrole : cu.role = "user")
    (hw : cu.wallet_address = some wallet)
    (hg : verify_eth_signature recover gbody.consent_message gbody.signature wallet
      = false)
    (hr : verify_eth_signature recover rbody.consent_message rbody.signature wallet
      = false) :
    grant_access recover now cu gbody s
      = (.error ⟨403, "Invalid digital signature. Consent rejected."⟩, s) ∧
    revoke_access recover now cu rbody s
      = (.error ⟨403, "Invalid digital signature. Revocation rejected."⟩, s) := by
  constructor
  · simp [grant_access, hrole, hw, hg]
  · simp [revoke_access, hrole, hw, hr]

def bodyGrantBadSig : GrantConsentRequest :=
  { bank_id := "b1", bank_wallet_address := "0xdef",
    signature := "sig-bad", consent_message := "m1" }

def bodyRevokeBadSig : RevokeConsentRequest :=
  { bank_id := "b1", bank_wallet_address := "0xdef",
    signature := "sig-bad", consent_message := "m2" }

/-- Witness for C3 at the fixture: a signature the oracle does not
recognise is rejected by both operations and the state is untouched. -/
theorem invalid_signature_witness :
    grant_access recoverC 7 userU bodyGrantBadSig s2
      = (.error ⟨403, "Invalid digital signature. Consent rejected."⟩, s2) ∧
    revoke_access recoverC 7 userU bodyRevokeBadSig s2
      = (.error ⟨403, "Invalid digital signature. Revocation rejected."⟩, s2) :=
  invalid_signature_rejects_and_preserves_state recoverC 7 userU
    bodyGrantBadSig bodyRevokeBadSig s2 "0xabc" rfl rfl (by decide) (by decide)

/-- Claim C4 amended: the create half of the claim holds — a
request-access call for a pair that already has a live (pending or
granted) record is rejected with 409 Conflict and the state, in
particular the consent table, is returned unchanged. (The universal
at-most-one-live invariant itself fails, see the counterexample.) -/
theorem request_access_conflict_rejects
    (now : Nat) (freshId : String) (cu : User) (body : AccessRequest)
    (s : DBState) (tu : User) (k : KYCRecord) (ex : ConsentRecord)
    (hrole : cu.role = "bank")
    (htu : s.users.find? (fun u =>
        u.wallet_address == some body.user_wallet_address && u.role == "user")
      = some tu)
    (hk : s.kyc_records.find? (fun kk => kk.user_id == tu.id) = some k)
    (hexp : k.expires_at.any (fun t => t < now) = false)
    (hex : s.consents.find? (fun c =>
        c.user_id == tu.id && c.bank_id == cu.id &&
        (c.status == ConsentStatus.pending || c.status == ConsentStatus.granted))
      = some ex) :
    request_access now freshId cu body s
      = (.error ⟨409, "Access request already exists with status: "
          ++ ex.status.pyRepr⟩, s) := by
  simp [request_access, hrole, htu, hk, hexp, hex]

/-- Witness for C4 at the fixture: with the second request still
pending, a third request by the same bank is answered 409 and adds
nothing. -/
theorem request_access_conflict_witness :
    request_access 9 "c3" bankB bodyReq s4
      = (.error ⟨409, "Access request already exists with status: ConsentStatus.pending"⟩,
         s4) :=
  request_access_conflict_rejects 9 "c3" bankB bodyReq s4 userU kycK
    { id := "c2", user_id := "u1", bank_id := "b1",
      status := ConsentStatus.pending, tx_hash := none, requested_at := 4,
      granted_at := none, revoked_at := none, signature := none }
    rfl (by decide) (by decide) (by decide) (by decide)

/-- Claim C8 amended: startup settings loading accepts any string as the
AES key — only presence is validated — and the 256-bit length check runs
inside every encrypt and decrypt call, which therefore raise the
key-length ValueError at runtime whenever the key does not decode to
exactly 32 bytes. -/
theorem aes_key_checked_per_call
    (env : List (String × String)) (jwt aes : String)
    (hjwt : env.lookup "JWT_SECRET_KEY" = some jwt)
    (haes : env.lookup "AES_ENCRYPTION_KEY" = some aes)
    (k : List Nat) (hk : bytes_fromhex aes.data = some k)
    (hlen : k.length ≠ 32) :
    loadSettings env = some ⟨jwt, aes⟩ ∧
    ∀ (A : AEAD) (nonce p : List Nat),
      encrypt_document A ⟨jwt, aes⟩ nonce p
        = .error "AES_ENCRYPTION_KEY must be exactly 32 bytes (64 hex chars)" ∧
      decrypt_document A ⟨jwt, aes⟩ nonce p
        = .error "AES_ENCRYPTION_KEY must be exactly 32 bytes (64 hex chars)" := by
  refine ⟨by simp [loadSettings, hjwt, haes], fun A nonce p => ⟨?_, ?_⟩⟩ <;>
    simp [encrypt_document, decrypt_document, get_aes_key, hk, hlen]

/-- Witness for C8: the 2-byte key again, through the general
theorem. -/
theorem aes_key_checked_per_call_witness :
    loadSettings envBad = some ⟨"jwt-secret", "aabb"⟩ ∧
    encrypt_document toyAEAD ⟨"jwt-secret", "aabb"⟩ [5] [1]
      = .error "AES_ENCRYPTION_KEY must be exactly 32 bytes (64 hex chars)" ∧
    decrypt_document toyAEAD ⟨"jwt-secret", "aabb"⟩ [5] [1]
      = .error "AES_ENCRYPTION_KEY must be exactly 32 bytes (64 hex chars)" :=
  let h := aes_key_checked_per_call envBad "jwt-secret" "aabb" (by decide)
    (by decide) [170, 187] (by decide) (by decide)
  ⟨h.1, (h.2 toyAEAD [5] [1]).1, (h.2 toyAEAD [5] [1]).2⟩

/-- Claim C10: the built-in fraud scorer never returns more than 75,
which is strictly below the rejection threshold of 80, so an upload
within the size limit always passes the gate of `upload_kyc` with its
score — the FraudSuspected branch is unreachable with this scorer. -/
theorem scan_document_below_fraud_threshold
    (file_bytes : List Nat) (content_type : String) (m : Nat)
    (hsize : file_bytes.length ≤ m * 1024 * 1024) :
    scan_document file_bytes content_type ≤ 75 ∧
    upload_kyc_gate m file_bytes content_type
      = .ok (scan_document file_bytes content_type) := by
  have hscan : scan_document file_bytes content_type ≤ 75 := by
    unfold scan_document
    repeat' split
    all_goals omega
  refine ⟨hscan, ?_⟩
  simp only [upload_kyc_gate]
  rw [if_neg (by omega), if_neg (by omega)]

/-- Witness for C10: a small PNG upload scores 60 and passes the
gate. -/
theorem scan_document_below_fraud_threshold_witness :
    scan_document [1, 2, 3] "image/png" ≤ 75 ∧
    upload_kyc_gate 10 [1, 2, 3] "image/png"
      = .ok (scan_document [1, 2, 3] "image/png") :=
  scan_document_below_fraud_threshold [1, 2, 3] "image/png" 10 (by decide)

/-- Claim C1 amended: on the fallback path — when the `bank_id` field
does not hit any consent record id — a successful grant does require a
pending record for the (subject, bank) pair: the record it transitions
to granted is that pending record, and nothing else in the consent
table changes.  (On the direct-by-id path the status is not checked at
all; see the counterexample.) -/
theorem grant_fallback_requires_pending
    (recover : String → String → Option String) (now : Nat) (cu : User)
    (body : GrantConsentRequest) (s s' : DBState) (c : ConsentRecord)
    (hmiss : s.consents.find? (fun x => x.id == body.bank_id) = none)
    (hok : grant_access recover now cu body s = (.ok c, s')) :
    ∃ bank c0,
      s.users.find? (fun u => u.id == body.bank_id) = some bank ∧
      s.consents.find? (fun x =>
          x.user_id == cu.id && x.bank_id == bank.id &&
          x.status == ConsentStatus.pending) = some c0 ∧
      c0.status = ConsentStatus.pending ∧
      c = { c0 with status := ConsentStatus.granted,
                    granted_at := some now,
                    signature := some body.signature } ∧
      s'.consents = updateFirst (fun x =>
          x.user_id == cu.id && x.bank_id == bank.id &&
          x.status == ConsentStatus.pending)
        (fun x => { x with status := ConsentStatus.granted,
                           granted_at := some now,
                           signature := some body.signature })
        s.consents := by
  simp only [grant_access, hmiss] at hok
  split at hok
  · simp at hok
  · split at hok
    · simp at hok
    · split at hok
      · simp at hok
      · split at hok
        · simp at hok
        · rename_i bank hbank
          split at hok
          · simp at hok
          · rename_i c0 hc0
            simp only [grant_apply] at hok
            split at hok
            · simp at hok
            · simp only [Prod.mk.injEq, Except.ok.injEq] at hok
              obtain ⟨hc, hs⟩ := hok
              have hp := List.find?_some hc0
              simp only [Bool.and_eq_true, beq_iff_eq] at hp
              exact ⟨bank, c0, hbank, hc0, hp.2, hc.symm, by rw [← hs]⟩

def cGr : ConsentRecord :=
  { id := "c1", user_id := "u1", bank_id := "b1",
    status := ConsentStatus.granted, tx_hash := none, requested_at := 1,
    granted_at := some 2, revoked_at := none, signature := some "sig-good" }

/-- Witness for C1 at the fixture: the grant that used the bank id
(fallback path) did transition the pending record of the pair. -/
theorem grant_fallback_requires_pending_witness :
    ∃ bank c0,
      s1.users.find? (fun u => u.id == bodyGrantByBank.bank_id) = some bank ∧
      s1.consents.find? (fun x =>
          x.user_id == userU.id && x.bank_id == bank.id &&
          x.status == ConsentStatus.pending) = some c0 ∧
      c0.status = ConsentStatus.pending ∧
      cGr = { c0 with status := ConsentStatus.granted,
                      granted_at := some 2,
                      signature := some bodyGrantByBank.signature } ∧
      s2.consents = updateFirst (fun x =>
          x.user_id == userU.id && x.bank_id == bank.id &&
          x.status == ConsentStatus.pending)
        (fun x => { x with status := ConsentStatus.granted,
                           granted_at := some 2,
                           signature := some bodyGrantByBank.signature })
        s1.consents :=
  grant_fallback_requires_pending recoverC 2 userU bodyGrantByBank s1 s2 cGr
    (by decide) (by decide)

/-- Claim C6 amended: each successful bank-side fetch of the decrypted
document (`bank_view_document`) appends exactly one audit entry; the
subject's own fetch (`identify_document`) returns the state — and so
the audit log — unchanged; and `view_user_kyc` never succeeds at all
(it raises on the missing enum member first). -/
theorem fetch_audit_semantics :
    (∀ now (cu : User) cid ipfs (s : DBState) r s',
        bank_view_document now cu cid ipfs s = (.ok r, s') →
        s'.audit.length = s.audit.length + 1) ∧
    (∀ imdecode (cu : User) ipfs (s : DBState) r s',
        identify_document imdecode cu ipfs s = (.ok r, s') → s' = s) ∧
    (∀ (cu : User) w (s : DBState) r s',
        view_user_kyc cu w s = (.ok r, s') → False) := by
  refine ⟨?_, ?_, ?_⟩
  · intro now cu cid ipfs s r s' h
    simp only [bank_view_document] at h
    split at h
    · simp at h
    · split at h
      · simp at h
      · split at h
        · simp at h
        · split at h
          · simp at h
          · simp only [Prod.mk.injEq, Except.ok.injEq] at h
            rw [← h.2]
            simp
  · intro imdecode cu ipfs s r s' h
    simp only [identify_document] at h
    split at h
    · simp at h
    · split at h
      · simp at h
      · split at h
        · simp at h
        · split at h
          · simp only [Prod.mk.injEq, Except.ok.injEq] at h
            exact h.2.symm
          · simp only [Prod.mk.injEq, Except.ok.injEq] at h
            exact h.2.symm
  · intro cu w s r s' h
    simp only [view_user_kyc] at h
    split at h
    · simp at h
    · split at h
      · simp at h
      · split at h
        · simp at h
        · split at h
          · simp at h
          · simp at h

def s2bv : DBState := (bank_view_document 9 bankB "c1" ipfsC s2).2

/-- Witness for C6 at the fixture: the bank-side view for the granted
consent grows the audit log by exactly one entry. -/
theorem fetch_audit_semantics_witness :
    s2bv.audit.length = s2.audit.length + 1 :=
  fetch_audit_semantics.1 9 bankB "c1" ipfsC s2
    { doc_type := "passport", doc_b64 := String.mk (b64encode [9, 9, 9]),
      uploaded_at := some 0 } s2bv (by decide)

theorem mem_insertDesc {x e : AuditLog} {l : List AuditLog}
    (h : x ∈ insertDesc e l) : x = e ∨ x ∈ l := by
  induction l with
  | nil => simpa [insertDesc] using h
  | cons y ys ih =>
    simp only [insertDesc] at h
    split at h
    · rcases List.mem_cons.1 h with h1 | h2
      · exact Or.inl h1
      · exact Or.inr h2
    · rcases List.mem_cons.1 h with h1 | h2
      · exact Or.inr (by simp [h1])
      · rcases ih h2 with h3 | h4
        · exact Or.inl h3
        · exact Or.inr (by simp [h4])

theorem mem_sortByCreatedDesc {x : AuditLog} {l : List AuditLog}
    (h : x ∈ sortByCreatedDesc l) : x ∈ l := by
  induction l with
  | nil => simp [sortByCreatedDesc] at h
  | cons y ys ih =>
    simp only [sortByCreatedDesc] at h
    rcases mem_insertDesc h with h1 | h2
    · simp [h1]
    · simp [ih h2]

theorem string_mk_data (l : List Char) : (String.mk l).data = l := rfl

theorem mem_page {l : List AuditLog} {skip limit : Nat} {e : AuditLog}
    (h : e ∈ ((sortByCreatedDesc l).drop skip).take limit) : e ∈ l :=
  mem_sortByCreatedDesc (List.mem_of_mem_drop (List.mem_of_mem_take h))

/-- Closed form of a successful audit query: role filter, then event
filter, then count, then ordering and pagination. -/
theorem get_audit_logs_ok_char (skip limit : Nat) (et : Option AuditEventType)
    (u : User) (s : DBState)
    (hrole : u.role = "user" ∨ u.role = "bank" ∨ u.role = "validator") :
    get_audit_logs skip limit et u s
      = .ok ⟨((s.audit.filter (auditVisibleCode u)).filter (etMatch et)).length,
             ((sortByCreatedDesc
                ((s.audit.filter (auditVisibleCode u)).filter (etMatch et))).drop
               skip).take limit⟩ := by
  rcases hrole with h | h | h <;> rcases et with _ | e <;>
    simp [get_audit_logs, auditVisibleCode, etMatch, h, List.filter_true]

/-- Claim C5 amended: a validator (auditor) sees every entry; a bank
sees exactly the entries in which it is the actor (entries merely
targeting it are excluded); a user sees the entries in which it is
actor or target; and the filter is applied before pagination, so the
returned total counts the caller's whole visible subset while `logs`
is one page of it. -/
theorem audit_logs_filter_before_pagination
    (skip limit : Nat) (et : Option AuditEventType) (u : User) (s : DBState)
    (out : AuditLogList)
    (hok : get_audit_logs skip limit et u s = .ok out) :
    out.total = ((s.audit.filter (auditVisibleCode u)).filter (etMatch et)).length ∧
    out.logs = ((sortByCreatedDesc
        ((s.audit.filter (auditVisibleCode u)).filter (etMatch et))).drop
      skip).take limit ∧
    ∀ e ∈ out.logs, auditVisibleCode u e = true := by
  have hrole : u.role = "user" ∨ u.role = "bank" ∨ u.role = "validator" := by
    by_contra hn
    push_neg at hn
    have h1 : (u.role == "user") = false := beq_eq_false_iff_ne.mpr hn.1
    have h2 : (u.role == "bank") = false := beq_eq_false_iff_ne.mpr hn.2.1
    have h3 : (u.role == "validator") = false := beq_eq_false_iff_ne.mpr hn.2.2
    simp [get_audit_logs, h1, h2, h3] at hok
  rw [get_audit_logs_ok_char skip limit et u s hrole] at hok
  simp only [Except.ok.injEq] at hok
  subst hok
  refine ⟨rfl, rfl, fun e he => ?_⟩
  have he2 : e ∈ ((sortByCreatedDesc
      ((s.audit.filter (auditVisibleCode u)).filter (etMatch et))).drop
    skip).take limit := he
  exact (List.mem_filter.1 (List.mem_filter.1 (mem_page he2)).1).2

/-- Witness for C5 at the fixture: a subject querying the single-entry
log gets a total of one, the one page, and an entry it is the actor
of. -/
theorem audit_logs_filter_before_pagination_witness :
    (AuditLogList.mk 1 [auditEntryT]).total
      = ((sAud.audit.filter (auditVisibleCode userU)).filter (etMatch none)).length ∧
    (AuditLogList.mk 1 [auditEntryT]).logs
      = ((sortByCreatedDesc
          ((sAud.audit.filter (auditVisibleCode userU)).filter (etMatch none))).drop
        0).take 50 ∧
    ∀ e ∈ (AuditLogList.mk 1 [auditEntryT]).logs,
      auditVisibleCode userU e = true :=
  audit_logs_filter_before_pagination 0 50 none userU sAud
    (AuditLogList.mk 1 [auditEntryT]) (by decide)

/-- Claim C7: for every AEAD meeting the documented AES-GCM contract and
any well-formed key, 12-byte nonce and byte payload, the sealed-blob
pipeline of `security.py` round-trips — `decrypt_from_b64` recovers the
exact payload from `encrypt_to_b64`'s output — and flipping any single
bit of the sealed blob (nonce, ciphertext or tag region alike) changes
the blob and makes decryption fail with the integrity error, never
return a plaintext. -/
theorem encrypt_decrypt_roundtrip_and_bitflip
    (A : AEAD) (st : Settings) (key nonce p : List Nat)
    (hkey : get_aes_key st = .ok key)
    (hkb : BytesLt key) (hnb : BytesLt nonce) (hpb : BytesLt p)
    (hn : nonce.length = 12) :
    encrypt_to_b64 A st nonce p
      = .ok (String.mk (b64encode (nonce ++ A.enc key nonce p))) ∧
    decrypt_from_b64 A st (String.mk (b64encode (nonce ++ A.enc key nonce p)))
      = .ok p ∧
    ∀ m j, m < (nonce ++ A.enc key nonce p).length → j < 8 →
      flipBitAt (nonce ++ A.enc key nonce p) m j ≠ nonce ++ A.enc key nonce p ∧
      decrypt_from_b64 A st
          (String.mk (b64encode (flipBitAt (nonce ++ A.enc key nonce p) m j)))
        = .error "InvalidTag" := by
  have hcb : BytesLt (nonce ++ A.enc key nonce p) := by
    intro b hb
    rcases List.mem_append.1 hb with h | h
    · exact hnb b h
    · exact A.enc_bytes key nonce p hkb hnb hpb b h
  refine ⟨?_, ?_, ?_⟩
  · simp [encrypt_to_b64, encrypt_document, hkey]
  · simp only [decrypt_from_b64, string_mk_data, b64decode_b64encode _ hcb]
    rw [List.take_left' hn, List.drop_left' hn]
    simp [decrypt_document, hkey, A.dec_enc]
  · intro m j hm hj
    refine ⟨flipBitAt_ne hm j, ?_⟩
    have hfb : BytesLt (flipBitAt (nonce ++ A.enc key nonce p) m j) :=
      flipBitAt_bytesLt hcb hj m
    simp only [decrypt_from_b64, string_mk_data, b64decode_b64encode _ hfb]
    by_cases hm12 : m < 12
    · have hmn : m < nonce.length := by omega
      rw [flipBitAt_append_left hmn]
      have hlen : (flipBitAt nonce m j).length = 12 := by
        simp [flipBitAt, hn]
      rw [List.take_left' hlen, List.drop_left' hlen]
      simp [decrypt_document, hkey, A.dec_flip_nonce key nonce p m j hmn hj]
    · have hge : nonce.length ≤ m := by omega
      rw [flipBitAt_append_right hge]
      rw [List.take_left' hn, List.drop_left' hn]
      have hmc : m - nonce.length < (A.enc key nonce p).length := by
        rw [List.length_append] at hm
        omega
      simp [decrypt_document, hkey,
        A.dec_flip_ct key nonce p (m - nonce.length) j hmc hj]

def stGood : Settings :=
  { JWT_SECRET_KEY := "jwt-secret",
    AES_ENCRYPTION_KEY :=
      "00112233445566778899aabbccddeeff00112233445566778899aabbccddeeff" }

def keyGood : List Nat :=
  [0x00, 0x11, 0x22, 0x33, 0x44, 0x55, 0x66, 0x77,
   0x88, 0x99, 0xaa, 0xbb, 0xcc, 0xdd, 0xee, 0xff,
   0x00, 0x11, 0x22, 0x33, 0x44, 0x55, 0x66, 0x77,
   0x88, 0x99, 0xaa, 0xbb, 0xcc, 0xdd, 0xee, 0xff]

def nonceW : List Nat := [1, 2, 3, 4, 5, 6, 7, 8, 9, 10, 11, 12]

def payloadW : List Nat := [42, 7, 255]

/-- Witness for C7 with the reference AEAD, a 32-byte key, a 12-byte
nonce and a 3-byte payload: the round trip recovers the payload and a
flip of the very first blob bit is rejected. -/
theorem encrypt_decrypt_roundtrip_and_bitflip_witness :
    decrypt_from_b64 toyAEAD stGood
        (String.mk (b64encode (nonceW ++ toyAEAD.enc keyGood nonceW payloadW)))
      = .ok payloadW ∧
    decrypt_from_b64 toyAEAD stGood
        (String.mk (b64encode
          (flipBitAt (nonceW ++ toyAEAD.enc keyGood nonceW payloadW) 0 0)))
      = .error "InvalidTag" :=
  let h := encrypt_decrypt_roundtrip_and_bitflip toyAEAD stGood keyGood nonceW
    payloadW (by decide) (by decide) (by decide) (by decide) (by decide)
  ⟨h.2.1, (h.2.2 0 0 (by decide) (by decide)).2⟩

end DecentKYC
